import Mathlib

set_option maxHeartbeats 1000000

/-!
Verification development for the ctgov-data pipeline (src/fetch_oncology.py,
src/analyze.py, src/ctgov.py).  The Python source is shallowly embedded:
dictionaries become structures with `Option` fields, Python string operations
become explicit functions on `List Char`, and the network is an explicit
oracle (a list of request outcomes) consumed by the fetch loops.
-/

/-! ## String primitives (models of the Python string operations used) -/

/-- `isPreOf n h` is true when `n` is an initial segment of `h`. -/
def isPreOf : List Char → List Char → Bool
  | [], _ => true
  | _ :: _, [] => false
  | a :: as, b :: bs => a == b && isPreOf as bs

/-- Models the Python expression `needle in hay` (substring containment). -/
def hasSubList (needle : List Char) : List Char → Bool
  | [] => needle.isEmpty
  | b :: bs => isPreOf needle (b :: bs) || hasSubList needle bs

/-- String-level substring test: models Python `needle in hay`. -/
def strIn (needle hay : String) : Bool :=
  hasSubList needle.toList hay.toList

/-- Models Python `str.lower()` (ASCII case folding, as used by the data). -/
def pyLower (s : String) : String := String.mk (s.toList.map Char.toLower)

/-- Models Python `str.upper()` (ASCII case folding, as used by the data). -/
def pyUpper (s : String) : String := String.mk (s.toList.map Char.toUpper)

/-- Models Python `str.strip()`: drop leading and trailing whitespace. -/
def pyStrip (s : String) : String :=
  String.mk (((s.toList.dropWhile Char.isWhitespace).reverse.dropWhile
    Char.isWhitespace).reverse)

/-- Models Python `str.startswith(pre)`. -/
def strStarts (s pre : String) : Bool := isPreOf pre.toList s.toList

/-! ## Sponsor tier classifier (src/analyze.py lines 13-179)

`LARGE_CAP` and `MID_MARKET` are Python `set` literals; `classify_sponsor`
iterates them and returns on the first bidirectional-substring hit.  Since
every hit inside one set yields the same label, set iteration order is
immaterial and the embedding keeps the source's textual order in a list
(the source's duplicate entry "Jazz Pharmaceuticals" is kept once, as the
Python set does). -/

def LARGE_CAP : List String := [
  "Johnson & Johnson",
  "Pfizer",
  "Roche",
  "Hoffmann-La Roche",
  "F. Hoffmann-La Roche",
  "Novartis",
  "Merck Sharp & Dohme",
  "Merck & Co",
  "MSD",
  "AbbVie",
  "Eli Lilly",
  "Lilly",
  "AstraZeneca",
  "Bristol-Myers Squibb",
  "Bristol Myers Squibb",
  "Amgen",
  "Gilead Sciences",
  "Gilead",
  "Sanofi",
  "GSK",
  "GlaxoSmithKline",
  "Bayer",
  "Regeneron",
  "Regeneron Pharmaceuticals",
  "Takeda",
  "Novo Nordisk",
  "Boehringer Ingelheim",
  "Astellas",
  "Astellas Pharma",
  "Daiichi Sankyo",
  "Merck KGaA",
  "EMD Serono",
  "Vertex",
  "Vertex Pharmaceuticals",
  "Moderna",
  "BioNTech"]

def MID_MARKET : List String := [
  "Seagen",
  "Incyte",
  "Incyte Corporation",
  "Jazz Pharmaceuticals",
  "Exact Sciences",
  "BeiGene",
  "Exelixis",
  "Blueprint Medicines",
  "Mirati Therapeutics",
  "Arcus Biosciences",
  "Nektar Therapeutics",
  "Iovance Biotherapeutics",
  "MacroGenics",
  "Immunomedics",
  "Agios Pharmaceuticals",
  "Array BioPharma",
  "Deciphera Pharmaceuticals",
  "Y-mAbs Therapeutics",
  "Relay Therapeutics",
  "Revolution Medicines",
  "Nuvalent",
  "G1 Therapeutics",
  "Turning Point Therapeutics",
  "Zymeworks",
  "iTeos Therapeutics",
  "Zentalis Pharmaceuticals",
  "Merus",
  "CytomX Therapeutics",
  "Syndax Pharmaceuticals",
  "Cullinan Oncology",
  "Ipsen",
  "Eisai",
  "Eisai Co., Ltd.",
  "Servier",
  "Les Laboratoires Servier",
  "Hengrui",
  "Jiangsu HengRui Medicine",
  "Jiangsu Hengrui Pharmaceuticals",
  "Hutchison Medipharma",
  "Zai Lab",
  "Innovent Biologics",
  "Hansoh Pharma",
  "CSPC Pharmaceutical",
  "Kelun",
  "Ono Pharmaceutical",
  "Chugai Pharmaceutical",
  "Sun Pharma",
  "Sun Pharmaceutical",
  "Dr. Reddy\x27s",
  "Teva",
  "Teva Pharmaceutical",
  "Mylan",
  "Viatris",
  "Hikma",
  "Perrigo",
  "Alexion",
  "Alexion Pharmaceuticals",
  "Alnyam Pharmaceuticals",
  "BioMarin",
  "BioMarin Pharmaceutical",
  "Horizon Therapeutics",
  "United Therapeutics",
  "Neurocrine Biosciences",
  "Halozyme",
  "Halozyme Therapeutics",
  "Coherus BioSciences",
  "Pierre Fabre",
  "Mundipharma",
  "Otsuka",
  "Otsuka Pharmaceutical",
  "Sumitomo Pharma",
  "Kyowa Kirin"]

/-- One reference-set test of `classify_sponsor`:
`lc.lower() in name_norm.lower() or name_norm.lower() in lc.lower()`. -/
def sponsorNameMatch (ref name_norm : String) : Bool :=
  strIn (pyLower ref) (pyLower name_norm) || strIn (pyLower name_norm) (pyLower ref)

inductive SponsorTier where
  | large_cap
  | mid_market
  | emerging
deriving DecidableEq

/-- `classify_sponsor` (src/analyze.py lines 167-179): non-INDUSTRY sponsor
classes are never tiered; otherwise the stripped name is tested against
`LARGE_CAP`, then `MID_MARKET`, by bidirectional case-insensitive substring
containment, with `emerging` as the residual tier. -/
def classify_sponsor (name sponsor_class : String) : Option SponsorTier :=
  if sponsor_class ≠ "INDUSTRY" then none
  else
    let name_norm := pyStrip name
    if LARGE_CAP.any fun lc => sponsorNameMatch lc name_norm then
      some SponsorTier.large_cap
    else if MID_MARKET.any fun mm => sponsorNameMatch mm name_norm then
      some SponsorTier.mid_market
    else some SponsorTier.emerging

/-! ## Facility type classifier (src/analyze.py lines 131-183, 301-319)

`ACADEMIC_RE` is a case-insensitive alternation of fifteen patterns.  The
regex features actually used are: literal characters, the `.` wildcard, the
`\b` word boundary, and `(?:a|b|...)` alternations of literal branches that
always stand at the end of their pattern.  The embedding represents each
pattern as a token sequence followed by an optional trailing alternation,
and `re.IGNORECASE` is modelled by lowering the subject string against the
already-lowercase patterns (ASCII folding, which covers the data). -/

inductive Tok where
  | ch : Char → Tok
  | dot : Tok
  | wb : Tok

/-- Python `\w`: letters, digits and underscore (ASCII range as used here). -/
def isWordChar (c : Char) : Bool := c.isAlphanum || c == '_'

/-- Turn a pattern fragment into tokens; `.` in a source pattern is the
regex any-character wildcard (none of the source patterns escape a dot). -/
def patToks (s : String) : List Tok :=
  s.toList.map fun c => if c == '.' then Tok.dot else Tok.ch c

/-- One alternative of `ACADEMIC_RE`: a token sequence `pre`, then either
nothing (`alts = []`) or one of the literal branches in `alts`. -/
structure RePattern where
  pre : List Tok
  alts : List (List Tok)

/-- Match a token sequence at the head of `cs`; `prev` is the character just
before the current position (for `\b`).  Returns the updated position. -/
def matchToks : List Tok → Option Char → List Char → Option (Option Char × List Char)
  | [], prev, rest => some (prev, rest)
  | Tok.wb :: ts, prev, rest =>
    let lw := match prev with
      | some c => isWordChar c
      | none => false
    let rw := match rest with
      | c :: _ => isWordChar c
      | [] => false
    if lw != rw then matchToks ts prev rest else none
  | Tok.ch c :: ts, _, rest =>
    match rest with
    | [] => none
    | r :: rs => if r == c then matchToks ts (some r) rs else none
  | Tok.dot :: ts, _, rest =>
    match rest with
    | [] => none
    | r :: rs => if r != '\n' then matchToks ts (some r) rs else none

/-- Does `p` match starting exactly at the position described by
`(prev, cs)`? -/
def matchPatternAt (p : RePattern) (prev : Option Char) (cs : List Char) : Bool :=
  match matchToks p.pre prev cs with
  | none => false
  | some (prev2, rest) =>
    if p.alts.isEmpty then true
    else p.alts.any fun br => (matchToks br prev2 rest).isSome

/-- `re.search` over one pattern: try every start position. -/
def searchFrom (p : RePattern) : Option Char → List Char → Bool
  | prev, [] => matchPatternAt p prev []
  | prev, c :: cs => matchPatternAt p prev (c :: cs) || searchFrom p (some c) cs

/-- The fifteen members of `ACADEMIC_PATTERNS`, in source order. -/
def ACADEMIC_PATTERNS : List RePattern := [
  ⟨patToks "university", []⟩,
  ⟨patToks "universi",
    [patToks "ty", patToks "tà", patToks "té", patToks "dad",
     patToks "dade", patToks "tät", patToks "teit"]⟩,
  ⟨[Tok.wb] ++ patToks "univ" ++ [Tok.wb], []⟩,
  ⟨patToks "medical ", [patToks "center", patToks "college", patToks "school"]⟩,
  ⟨patToks "school of medicine", []⟩,
  ⟨patToks "college of medicine", []⟩,
  ⟨patToks "teaching hospital", []⟩,
  ⟨patToks "academic", []⟩,
  ⟨[],
    [patToks "mayo", patToks "cleveland", patToks "johns hopkins",
     patToks "md anderson", patToks "memorial sloan", patToks "mskcc",
     patToks "dana.farber", patToks "mass general", patToks "cedars.sinai",
     patToks "stanford", patToks "duke", patToks "emory",
     patToks "vanderbilt", patToks "mount sinai", patToks "nyu langone",
     patToks "ucsf", patToks "ucla", patToks "upenn",
     patToks "penn medicine", patToks "columbia university",
     patToks "weill cornell", patToks "harvard", patToks "yale",
     patToks "northwestern memorial", patToks "ohio state",
     patToks "michigan medicine", patToks "ut southwestern",
     patToks "baylor college", patToks "fred hutch", patToks "city of hope",
     patToks "roswell park", patToks "moffitt", patToks "fox chase",
     patToks "huntsman", patToks "winship", patToks "abramson",
     patToks "siteman", patToks "lineberger",
     patToks "national cancer institute",
     patToks "national institutes of health",
     patToks "nih clinical center"]⟩,
  ⟨patToks "cancer ", [patToks "center", patToks "institute", patToks "hospital"]⟩,
  ⟨patToks "research ", [patToks "hospital", patToks "institute", patToks "center"]⟩,
  ⟨patToks "children.s hospital", []⟩,
  ⟨[], [patToks "va medical", patToks "veterans affairs"]⟩,
  ⟨patToks "hospital of the university", []⟩]

/-- `is_academic_facility` (src/analyze.py line 182):
`bool(ACADEMIC_RE.search(facility_name))`. -/
def is_academic_facility (facility_name : String) : Bool :=
  ACADEMIC_PATTERNS.any fun p => searchFrom p none (pyLower facility_name).toList

inductive TrialSiteCategory where
  | noFacilityData
  | academicOnly
  | communityOnly
  | mixed
deriving DecidableEq

/-- The per-trial facility aggregation of src/analyze.py lines 301-319:
count academic vs non-academic facility names and pick the category. -/
def classify_trial (facilities : List String) : TrialSiteCategory :=
  if facilities.isEmpty then TrialSiteCategory.noFacilityData
  else
    let acad := facilities.countP is_academic_facility
    let comm := facilities.length - acad
    if acad > 0 ∧ comm = 0 then TrialSiteCategory.academicOnly
    else if acad = 0 ∧ comm > 0 then TrialSiteCategory.communityOnly
    else TrialSiteCategory.mixed

/-! ## Record flattener (src/fetch_oncology.py lines 14-98)

A `RawRecord` is the nested JSON study document.  Every `dict.get(key,
default)` of the source corresponds to an `Option` field read with `getD`,
so a key may be absent at any nesting level.  `extract_row` renders each
cell the way it ends up in the CSV file: the enrollment count (a JSON
number) and the healthy-volunteers flag (a JSON boolean) are shown as the
csv writer prints them (`str()`), everything else is already a string. -/

structure DateStruct where
  date : Option String

structure IdentificationModule where
  nctId : Option String
  briefTitle : Option String
  officialTitle : Option String

structure StatusModule where
  overallStatus : Option String
  startDateStruct : Option DateStruct
  completionDateStruct : Option DateStruct
  lastUpdatePostDateStruct : Option DateStruct

structure EnrollmentInfo where
  count : Option Int
  type : Option String

structure DesignModule where
  phases : Option (List String)
  studyType : Option String
  enrollmentInfo : Option EnrollmentInfo

structure ConditionsModule where
  conditions : Option (List String)
  keywords : Option (List String)

/-- A sponsor entry; the JSON key `class` is named `sclass` here because
`class` is a Lean keyword. -/
structure SponsorEntry where
  name : Option String
  sclass : Option String

structure SponsorCollaboratorsModule where
  leadSponsor : Option SponsorEntry
  collaborators : Option (List SponsorEntry)

structure EligibilityModule where
  sex : Option String
  minimumAge : Option String
  maximumAge : Option String
  healthyVolunteers : Option Bool

structure Intervention where
  type : Option String
  name : Option String

structure ArmsInterventionsModule where
  interventions : Option (List Intervention)

structure Outcome where
  measure : Option String

structure OutcomesModule where
  primaryOutcomes : Option (List Outcome)
  secondaryOutcomes : Option (List Outcome)

structure ProtocolSection where
  identificationModule : Option IdentificationModule
  statusModule : Option StatusModule
  designModule : Option DesignModule
  conditionsModule : Option ConditionsModule
  sponsorCollaboratorsModule : Option SponsorCollaboratorsModule
  eligibilityModule : Option EligibilityModule
  armsInterventionsModule : Option ArmsInterventionsModule
  outcomesModule : Option OutcomesModule

structure RawRecord where
  protocolSection : Option ProtocolSection

def emptyIdentificationModule : IdentificationModule := ⟨none, none, none⟩

def emptyStatusModule : StatusModule := ⟨none, none, none, none⟩

def emptyDesignModule : DesignModule := ⟨none, none, none⟩

def emptyConditionsModule : ConditionsModule := ⟨none, none⟩

def emptySponsorCollaboratorsModule : SponsorCollaboratorsModule := ⟨none, none⟩

def emptyEligibilityModule : EligibilityModule := ⟨none, none, none, none⟩

def emptyArmsInterventionsModule : ArmsInterventionsModule := ⟨none⟩

def emptyOutcomesModule : OutcomesModule := ⟨none, none⟩

def emptyProtocolSection : ProtocolSection :=
  ⟨none, none, none, none, none, none, none, none⟩

def emptyRawRecord : RawRecord := ⟨none⟩

/-- A flattened row: ordered field-name/value pairs as written to the CSV. -/
def Row : Type := List (String × String)

/-- The fixed CSV header (src/fetch_oncology.py lines 14-39). -/
def CSV_COLUMNS : List String := [
  "nct_id",
  "brief_title",
  "official_title",
  "overall_status",
  "phase",
  "study_type",
  "enrollment",
  "enrollment_type",
  "start_date",
  "completion_date",
  "last_update_post_date",
  "lead_sponsor",
  "lead_sponsor_class",
  "collaborators",
  "conditions",
  "keywords",
  "interventions",
  "primary_outcomes",
  "secondary_outcomes",
  "sex",
  "min_age",
  "max_age",
  "healthy_volunteers",
  "study_url"]

/-- `extract_row` (src/fetch_oncology.py lines 50-98): defensive flattening;
every absent key falls back to the empty default of the source's `.get`. -/
def extract_row (study : RawRecord) : Row :=
  let proto := study.protocolSection.getD emptyProtocolSection
  let ident := proto.identificationModule.getD emptyIdentificationModule
  let status_mod := proto.statusModule.getD emptyStatusModule
  let design := proto.designModule.getD emptyDesignModule
  let conditions := proto.conditionsModule.getD emptyConditionsModule
  let sponsors := proto.sponsorCollaboratorsModule.getD emptySponsorCollaboratorsModule
  let eligibility := proto.eligibilityModule.getD emptyEligibilityModule
  let arms := proto.armsInterventionsModule.getD emptyArmsInterventionsModule
  let outcomes := proto.outcomesModule.getD emptyOutcomesModule
  let nct_id := ident.nctId.getD ""
  let phases := design.phases.getD []
  let enrollment_info := design.enrollmentInfo.getD ⟨none, none⟩
  let lead := sponsors.leadSponsor.getD ⟨none, none⟩
  let collabs := sponsors.collaborators.getD []
  let interventions := arms.interventions.getD []
  let primary := outcomes.primaryOutcomes.getD []
  let secondary := outcomes.secondaryOutcomes.getD []
  [("nct_id", nct_id),
   ("brief_title", ident.briefTitle.getD ""),
   ("official_title", ident.officialTitle.getD ""),
   ("overall_status", status_mod.overallStatus.getD ""),
   ("phase", if phases.isEmpty then "" else String.intercalate "|" phases),
   ("study_type", design.studyType.getD ""),
   ("enrollment", match enrollment_info.count with
     | some n => toString n
     | none => ""),
   ("enrollment_type", enrollment_info.type.getD ""),
   ("start_date", ((status_mod.startDateStruct.getD ⟨none⟩).date).getD ""),
   ("completion_date", ((status_mod.completionDateStruct.getD ⟨none⟩).date).getD ""),
   ("last_update_post_date",
     ((status_mod.lastUpdatePostDateStruct.getD ⟨none⟩).date).getD ""),
   ("lead_sponsor", lead.name.getD ""),
   ("lead_sponsor_class", lead.sclass.getD ""),
   ("collaborators", String.intercalate "|" (collabs.map fun c => c.name.getD "")),
   ("conditions", String.intercalate "|" (conditions.conditions.getD [])),
   ("keywords", String.intercalate "|" (conditions.keywords.getD [])),
   ("interventions", String.intercalate "|"
     (interventions.map fun i => (i.type.getD "") ++ ":" ++ (i.name.getD ""))),
   ("primary_outcomes", String.intercalate "|" (primary.map fun o => o.measure.getD "")),
   ("secondary_outcomes", String.intercalate "|" (secondary.map fun o => o.measure.getD "")),
   ("sex", eligibility.sex.getD ""),
   ("min_age", eligibility.minimumAge.getD ""),
   ("max_age", eligibility.maximumAge.getD ""),
   ("healthy_volunteers", match eligibility.healthyVolunteers with
     | some b => if b then "True" else "False"
     | none => ""),
   ("study_url", if nct_id ≠ "" then "https://clinicaltrials.gov/study/" ++ nct_id else "")]

/-! ## Paginated fetcher (src/fetch_oncology.py lines 101-153)

The network is an oracle: a list of request outcomes, one per `api_request`
call, each either a page or an HTTP failure.  Delays are recorded in tenths
of a time-unit, so the inter-page `time.sleep(1.2)` is `12` and the retry
`time.sleep(10)` is `100`.  The loop of `main` writes one CSV row per study
as it goes; the embedding accumulates those rows in order. -/

structure HttpErr where
  code : Nat
  reason : String
  body : String

structure Page where
  studies : List RawRecord
  nextPageToken : Option String

/-- The fetch loop of `main` starting from an already-received page `data`:
emit the page's rows; stop cleanly when `nextPageToken` is absent; otherwise
sleep 1.2 and request the next page, retrying exactly once after a 10-unit
sleep on failure; a failed retry stops the loop with the abort flag set
(rows already emitted are preserved).  The result is
(rows written, sleep log in tenths, aborted?).  A request made after the
oracle is exhausted behaves like a failure. -/
def fetchLoop : Page → List (Except HttpErr Page) → List Row × List Nat × Bool
  | data, [] =>
    (match data.nextPageToken with
     | none => (data.studies.map extract_row, [], false)
     | some _ => (data.studies.map extract_row, [12, 100], true))
  | data, Except.ok p :: rest =>
    (match data.nextPageToken with
     | none => (data.studies.map extract_row, [], false)
     | some _ =>
       let r := fetchLoop p rest
       (data.studies.map extract_row ++ r.1, 12 :: r.2.1, r.2.2))
  | data, Except.error _ :: [] =>
    (match data.nextPageToken with
     | none => (data.studies.map extract_row, [], false)
     | some _ => (data.studies.map extract_row, [12, 100], true))
  | data, Except.error _ :: Except.ok p :: rest =>
    (match data.nextPageToken with
     | none => (data.studies.map extract_row, [], false)
     | some _ =>
       let r := fetchLoop p rest
       (data.studies.map extract_row ++ r.1, 12 :: 100 :: r.2.1, r.2.2))
  | data, Except.error _ :: Except.error _ :: _ =>
    (match data.nextPageToken with
     | none => (data.studies.map extract_row, [], false)
     | some _ => (data.studies.map extract_row, [12, 100], true))

/-- `main`'s initial count-discovery request (src/fetch_oncology.py line
111) is issued outside any try/except: a failure propagates as an uncaught
exception, so the run terminates at once with a non-zero exit status and no
retry, before any row is written.  On success the page loop runs. -/
def fetchMain (first : Except HttpErr Page) (net : List (Except HttpErr Page)) :
    Except HttpErr (List Row × List Nat × Bool) :=
  match first with
  | Except.error e => Except.error e
  | Except.ok p => Except.ok (fetchLoop p net)

/-- The operator-visible message of the uncaught failure: Python renders an
uncaught `urllib.error.HTTPError` as `HTTP Error {code}: {reason}` in the
traceback; the response body is not part of it. -/
def uncaughtHttpErrMsg (e : HttpErr) : String :=
  "HTTP Error " ++ toString e.code ++ ": " ++ e.reason

/-- `api_request` of src/ctgov.py (lines 34-55): a failure is caught, the
status line and the response body (when non-empty) are printed, and the
process exits non-zero.  The error branch carries the printed lines. -/
def ctgovApiRequest {α : Type} (outcome : Except HttpErr α) : Except (List String) α :=
  match outcome with
  | Except.ok v => Except.ok v
  | Except.error e =>
    Except.error (["HTTP " ++ toString e.code ++ ": " ++ e.reason] ++
      (if e.body = "" then [] else [e.body]))

/-- `tokensOK p ps` says the chain `p :: ps` is a well-formed page sequence:
every page except the last carries a continuation token and the last one
does not. -/
def tokensOK : Page → List Page → Bool
  | p, [] => p.nextPageToken.isNone
  | p, q :: qs => p.nextPageToken.isSome && tokensOK q qs

/-- The rows of a page sequence, in page order. -/
def pagesRows (ps : List Page) : List Row :=
  (ps.map fun p => p.studies.map extract_row).flatten

/-! ## The search command loops (src/ctgov.py lines 102-189)

`cmd_search` never inspects the study payloads except to print a summary,
so the study type is a parameter `α`.  Console output is modelled as a list
of events: the `Found N studies` header, one `study` event per printed
summary, the `... N more studies` truncation notice, and the final
`No studies found.` message.  The raw-JSON mode prints exactly one thing,
`json.dumps(all_studies)`, so its model returns that studies list. -/

structure SPage (α : Type) where
  studies : List α
  totalCount : Nat
  nextPageToken : Option String

inductive OutEvent (α : Type) where
  | found : Nat → OutEvent α
  | study : α → OutEvent α
  | more : Int → OutEvent α
  | noStudies : OutEvent α
deriving DecidableEq

/-- The formatted-output loop of `cmd_search` (lines 155-186).  Arguments:
`maxPages` (`0` models a falsy `--max-pages`), the running `total_shown`
and `pages_fetched` counters, and the page oracle.  Returns the events in
print order together with the final `total_shown`.  An exhausted oracle
models a request failure, which exits the process (unreached in the claims
below). -/
def fmtLoop {α : Type} (maxPages : Nat) : Nat → Nat → List (SPage α) →
    List (OutEvent α) × Nat
  | shown, _, [] => ([], shown)
  | shown, fetched, data :: net =>
    let header := if fetched == 0 then [OutEvent.found data.totalCount] else []
    let evs := data.studies.map OutEvent.study
    let shown2 := shown + data.studies.length
    let fetched2 := fetched + 1
    match data.nextPageToken with
    | none => (header ++ evs, shown2)
    | some _ =>
      if maxPages ≠ 0 ∧ maxPages ≤ fetched2 then
        let remaining : Int := (data.totalCount : Int) - (shown2 : Int)
        (header ++ evs ++ (if 0 < remaining then [OutEvent.more remaining] else []),
          shown2)
      else
        let r := fmtLoop maxPages shown2 fetched2 net
        (header ++ evs ++ r.1, r.2)

/-- `cmd_search` in formatted mode: run the loop, then print
`No studies found.` when nothing was shown. -/
def cmd_search_fmt {α : Type} (maxPages : Nat) (net : List (SPage α)) :
    List (OutEvent α) :=
  let r := fmtLoop maxPages 0 0 net
  r.1 ++ (if r.2 == 0 then [OutEvent.noStudies] else [])

/-- The raw-JSON loop of `cmd_search` (lines 138-152): accumulate
`data.studies` page by page, stopping when the token is absent or
`pages_fetched` reaches `maxPages`.  The returned list is the complete
output of the mode (it is dumped as JSON and nothing else is printed). -/
def jsonLoop {α : Type} (maxPages : Nat) : Nat → List (SPage α) → List α
  | _, [] => []
  | fetched, data :: net =>
    let fetched2 := fetched + 1
    match data.nextPageToken with
    | none => data.studies
    | some _ =>
      if maxPages ≠ 0 ∧ maxPages ≤ fetched2 then data.studies
      else data.studies ++ jsonLoop maxPages fetched2 net

/-- `cmd_search --json`: the printed value. -/
def cmd_search_json {α : Type} (maxPages : Nat) (net : List (SPage α)) : List α :=
  jsonLoop maxPages 0 net

/-- The studies of a page sequence in order (what a complete fetch shows). -/
def pagesStudies {α : Type} (ps : List (SPage α)) : List α :=
  (ps.map SPage.studies).flatten

/-- Total number of studies carried by a page sequence. -/
def pagesSize {α : Type} (ps : List (SPage α)) : Nat :=
  (ps.map fun p => p.studies.length).sum

/-- The study events printed for a page sequence, in order. -/
def studiesEvents {α : Type} (ps : List (SPage α)) : List (OutEvent α) :=
  (ps.map fun p => p.studies.map OutEvent.study).flatten

/-- `totalCount` of the first page (what the `Found N studies` header shows). -/
def firstTotal {α : Type} : List (SPage α) → Nat
  | [] => 0
  | p :: _ => p.totalCount

/-- The truncation notice: `... N more studies` is printed only when the
remaining count is positive. -/
def moreIfPos {α : Type} (total shown : Nat) : List (OutEvent α) :=
  if 0 < (total : Int) - (shown : Int) then [OutEvent.more ((total : Int) - (shown : Int))]
  else []

/-! ## NCT ID normalization (src/ctgov.py lines 192-198) -/

/-- `cmd_study` uppercases the identifier and prepends `NCT` when the
uppercased form does not already start with it. -/
def normalize_nct (s : String) : String :=
  let nct_id := pyUpper s
  if strStarts nct_id "NCT" then nct_id else "NCT" ++ nct_id

/-- The single-record endpoint path requested by `cmd_study`:
`/studies/{nct_id}`. -/
def studyRequestPath (s : String) : String :=
  "/studies/" ++ normalize_nct s

/-! ## The tabular (CSV) layer

src/fetch_oncology.py writes rows with `csv.DictWriter` and
src/analyze.py reads them back with `csv.DictReader`, both with the default
dialect: fields are comma-separated; a field containing a comma, a double
quote or a line break is wrapped in double quotes with inner quotes
doubled (QUOTE_MINIMAL); the reader undoes this.  The model below embeds
that dialect for a single record line. -/

/-- Does the csv writer have to quote this field? -/
def csvNeedsQuote (cs : List Char) : Bool :=
  cs.any fun c => c == ',' || c == '"' || c == '\n' || c == '\r'

/-- Double every inner double quote. -/
def csvEscape : List Char → List Char
  | [] => []
  | c :: cs => if c == '"' then '"' :: '"' :: csvEscape cs else c :: csvEscape cs

/-- Render one field the way `csv.writer` does (QUOTE_MINIMAL). -/
def csvField (cs : List Char) : List Char :=
  if csvNeedsQuote cs then '"' :: (csvEscape cs ++ ['"']) else cs

/-- Render one record line (without the trailing newline). -/
def csvWriteLine : List (List Char) → List Char
  | [] => []
  | [f] => csvField f
  | f :: fs => csvField f ++ ',' :: csvWriteLine fs

/-- The csv reader's scanner states: `plain` outside quotes, `quoted`
inside a quoted section, `closing` just after a quote character seen while
quoted (a second quote is an escaped literal quote, anything else ends the
quoted section). -/
inductive CsvMode where
  | plain
  | quoted
  | closing

/-- The csv reader's field scanner; `acc` is the reversed current field.
A quote opens a quoted section only at the start of a field; elsewhere it
is a literal character, matching the Python csv module's reader. -/
def csvParseAux (mode : CsvMode) (acc : List Char) : List Char → List (List Char)
  | [] => [acc.reverse]
  | c :: rest =>
    match mode with
    | CsvMode.plain =>
      if c == ',' then acc.reverse :: csvParseAux CsvMode.plain [] rest
      else if c == '"' && acc.isEmpty then csvParseAux CsvMode.quoted acc rest
      else csvParseAux CsvMode.plain (c :: acc) rest
    | CsvMode.quoted =>
      if c == '"' then csvParseAux CsvMode.closing acc rest
      else csvParseAux CsvMode.quoted (c :: acc) rest
    | CsvMode.closing =>
      if c == '"' then csvParseAux CsvMode.quoted ('"' :: acc) rest
      else if c == ',' then acc.reverse :: csvParseAux CsvMode.plain [] rest
      else csvParseAux CsvMode.plain (c :: acc) rest

/-- Parse one record line into its fields. -/
def csvParseLine (cs : List Char) : List (List Char) :=
  csvParseAux CsvMode.plain [] cs

/-- Export a row's values as one CSV line. -/
def csvWriteRow (vals : List String) : String :=
  String.mk (csvWriteLine (vals.map String.toList))

/-- Reparse one CSV line into field values. -/
def csvParseRow (s : String) : List String :=
  (csvParseLine s.toList).map String.mk

/-- A value is delimiter-safe when it contains neither the column delimiter
nor a line break (double quotes are allowed: the writer escapes them). -/
def csvSafe (s : String) : Bool :=
  s.toList.all fun c => !(c == ',') && !(c == '\n') && !(c == '\r')

/-! # Claims -/

/-- The `INDUSTRY`-class branch of `classify_sponsor`, unfolded. -/
theorem classify_sponsor_industry (name : String) :
    classify_sponsor name "INDUSTRY" =
      if LARGE_CAP.any fun lc => sponsorNameMatch lc (pyStrip name) then
        some SponsorTier.large_cap
      else if MID_MARKET.any fun mm => sponsorNameMatch mm (pyStrip name) then
        some SponsorTier.mid_market
      else some SponsorTier.emerging := by
  simp [classify_sponsor]

/-- Claim C1: the sponsor tier classifier returns `none` exactly on
non-`INDUSTRY` classes; on the industry class it trims the name, tests
bidirectional case-insensitive substring containment against the large-cap
set, then the mid-market set, and returns `large_cap`, `mid_market`, or
`emerging` accordingly; in particular
`classify("Pfizer","INDUSTRY") = large_cap`,
`classify("Any Biotech Inc","INDUSTRY") = emerging`, and
`classify("Stanford University","OTHER") = none`. -/
theorem claim_C1 :
    (∀ name cls : String, classify_sponsor name cls = none ↔ cls ≠ "INDUSTRY")
    ∧ (∀ name : String,
        classify_sponsor name "INDUSTRY" = some SponsorTier.large_cap ↔
          ∃ lc ∈ LARGE_CAP, sponsorNameMatch lc (pyStrip name) = true)
    ∧ (∀ name : String,
        classify_sponsor name "INDUSTRY" = some SponsorTier.mid_market ↔
          (¬ ∃ lc ∈ LARGE_CAP, sponsorNameMatch lc (pyStrip name) = true)
          ∧ ∃ mm ∈ MID_MARKET, sponsorNameMatch mm (pyStrip name) = true)
    ∧ (∀ name : String,
        classify_sponsor name "INDUSTRY" = some SponsorTier.emerging ↔
          (¬ ∃ lc ∈ LARGE_CAP, sponsorNameMatch lc (pyStrip name) = true)
          ∧ ¬ ∃ mm ∈ MID_MARKET, sponsorNameMatch mm (pyStrip name) = true)
    ∧ classify_sponsor "Pfizer" "INDUSTRY" = some SponsorTier.large_cap
    ∧ classify_sponsor "Any Biotech Inc" "INDUSTRY" = some SponsorTier.emerging
    ∧ classify_sponsor "Stanford University" "OTHER" = none := by
  refine ⟨?_, ?_, ?_, ?_, by decide, by decide, by decide⟩
  · intro name cls
    constructor
    · intro h hc
      rw [hc, classify_sponsor_industry] at h
      revert h
      split
      · simp
      · split <;> simp
    · intro h
      simp [classify_sponsor, h]
  · intro name
    rw [classify_sponsor_industry]
    by_cases h : (LARGE_CAP.any fun lc => sponsorNameMatch lc (pyStrip name)) = true
    · rw [if_pos h]
      exact iff_of_true rfl (by simpa [List.any_eq_true] using h)
    · rw [if_neg h]
      refine iff_of_false ?_ (by simpa [List.any_eq_true] using h)
      split <;> simp
  · intro name
    rw [classify_sponsor_industry]
    by_cases hL : (LARGE_CAP.any fun lc => sponsorNameMatch lc (pyStrip name)) = true
    · rw [if_pos hL]
      refine iff_of_false (by simp) ?_
      rintro ⟨hnl, _⟩
      exact hnl (by simpa [List.any_eq_true] using hL)
    · rw [if_neg hL]
      by_cases hM : (MID_MARKET.any fun mm => sponsorNameMatch mm (pyStrip name)) = true
      · rw [if_pos hM]
        exact iff_of_true rfl
          ⟨by simpa [List.any_eq_true] using hL, by simpa [List.any_eq_true] using hM⟩
      · rw [if_neg hM]
        refine iff_of_false (by simp) ?_
        rintro ⟨_, hm⟩
        exact hM (by simpa [List.any_eq_true] using hm)
  · intro name
    rw [classify_sponsor_industry]
    by_cases hL : (LARGE_CAP.any fun lc => sponsorNameMatch lc (pyStrip name)) = true
    · rw [if_pos hL]
      refine iff_of_false (by simp) ?_
      rintro ⟨hnl, _⟩
      exact hnl (by simpa [List.any_eq_true] using hL)
    · rw [if_neg hL]
      by_cases hM : (MID_MARKET.any fun mm => sponsorNameMatch mm (pyStrip name)) = true
      · rw [if_pos hM]
        refine iff_of_false (by simp) ?_
        rintro ⟨_, hnm⟩
        exact hnm (by simpa [List.any_eq_true] using hM)
      · rw [if_neg hM]
        exact iff_of_true rfl
          ⟨by simpa [List.any_eq_true] using hL, by simpa [List.any_eq_true] using hM⟩

/-- Witness for C1 at a concrete sponsor: the mid-market characterization
applied to Seagen. -/
theorem claim_C1_witness :
    classify_sponsor "Seagen" "INDUSTRY" = some SponsorTier.mid_market :=
  (claim_C1.2.2.1 "Seagen").mpr
    ⟨by decide, ⟨"Seagen", by decide, by decide⟩⟩

/-- Claim C10: the industry test of the sponsor tier classifier is a
case-sensitive comparison with the exact string `INDUSTRY`; any other
class value, including `Industry` and `industry`, yields `none` regardless
of the name. -/
theorem claim_C10 :
    (∀ name cls : String, cls ≠ "INDUSTRY" → classify_sponsor name cls = none)
    ∧ classify_sponsor "Pfizer" "Industry" = none
    ∧ classify_sponsor "Pfizer" "industry" = none := by
  refine ⟨?_, by decide, by decide⟩
  intro name cls h
  simp [classify_sponsor, h]

/-- Witness for C10: a curated large-cap name with a non-industry class. -/
theorem claim_C10_witness : classify_sponsor "Eli Lilly" "NIH" = none :=
  claim_C10.1 "Eli Lilly" "NIH" (by decide)

/-- Claim C2: per-trial facility classification: an empty facility list is
`no-facility-data`; all names matching the academic pattern is
`academic-only`; none matching (with at least one facility) is
`community-only`; at least one of each is `mixed`; with the four concrete
instances from the spec. -/
theorem claim_C2 :
    (∀ fs : List String,
      (fs = [] → classify_trial fs = TrialSiteCategory.noFacilityData)
      ∧ (fs ≠ [] → (∀ f ∈ fs, is_academic_facility f = true) →
          classify_trial fs = TrialSiteCategory.academicOnly)
      ∧ (fs ≠ [] → (∀ f ∈ fs, is_academic_facility f = false) →
          classify_trial fs = TrialSiteCategory.communityOnly)
      ∧ ((∃ f ∈ fs, is_academic_facility f = true) →
          (∃ f ∈ fs, is_academic_facility f = false) →
          classify_trial fs = TrialSiteCategory.mixed))
    ∧ classify_trial [] = TrialSiteCategory.noFacilityData
    ∧ classify_trial ["MD Anderson Cancer Center"] = TrialSiteCategory.academicOnly
    ∧ classify_trial ["Community Oncology Clinic"] = TrialSiteCategory.communityOnly
    ∧ classify_trial ["MD Anderson Cancer Center", "Community Oncology Clinic"]
        = TrialSiteCategory.mixed := by
  refine ⟨?_, by decide, by decide, by decide, by decide⟩
  intro fs
  refine ⟨?_, ?_, ?_, ?_⟩
  · intro h
    subst h
    rfl
  · intro hne hall
    have hemp : fs.isEmpty = false := List.isEmpty_eq_false.mpr hne
    have hcnt : fs.countP is_academic_facility = fs.length :=
      List.countP_eq_length.mpr hall
    have hpos : 0 < fs.length := List.length_pos.mpr hne
    simp only [classify_trial, hemp, Bool.false_eq_true, if_false]
    rw [if_pos (by omega)]
  · intro hne hnone
    have hemp : fs.isEmpty = false := List.isEmpty_eq_false.mpr hne
    have hcnt : fs.countP is_academic_facility = 0 :=
      List.countP_eq_zero.mpr (by intro a ha; simp [hnone a ha])
    have hpos : 0 < fs.length := List.length_pos.mpr hne
    simp only [classify_trial, hemp, Bool.false_eq_true, if_false]
    rw [if_neg (by omega), if_pos (by omega)]
  · intro hex hnex
    obtain ⟨a, ha, hpa⟩ := hex
    obtain ⟨b, hb, hpb⟩ := hnex
    have hne : fs ≠ [] := by
      rintro rfl
      exact absurd ha (List.not_mem_nil a)
    have hemp : fs.isEmpty = false := List.isEmpty_eq_false.mpr hne
    have h1 : 0 < fs.countP is_academic_facility :=
      List.countP_pos_iff.mpr ⟨a, ha, hpa⟩
    have h2 : fs.countP is_academic_facility ≠ fs.length := by
      intro hcontra
      have := List.countP_eq_length.mp hcontra b hb
      rw [hpb] at this
      exact Bool.false_ne_true this
    have h3 : fs.countP is_academic_facility ≤ fs.length :=
      List.countP_le_length _
    simp only [classify_trial, hemp, Bool.false_eq_true, if_false]
    rw [if_neg (by omega), if_neg (by omega)]

/-- Witness for C2: a mixed trial distinct from the spec's example. -/
theorem claim_C2_witness :
    classify_trial ["Duke University Medical Center", "Sunrise Clinic"]
      = TrialSiteCategory.mixed :=
  (claim_C2.1 ["Duke University Medical Center", "Sunrise Clinic"]).2.2.2
    ⟨"Duke University Medical Center", by decide, by decide⟩
    ⟨"Sunrise Clinic", by decide, by decide⟩

/-- Claim C3: `extract_row` is total over records with arbitrarily absent
nested keys, always produces exactly the fixed 24-column key set in order,
and renders missing source data as the empty string. -/
theorem claim_C3 :
    (∀ study : RawRecord, (extract_row study).map Prod.fst = CSV_COLUMNS)
    ∧ CSV_COLUMNS.length = 24
    ∧ ((extract_row emptyRawRecord).map Prod.snd).all (fun v => v == "") = true :=
  ⟨fun _ => rfl, by decide, by decide⟩

/-- Claim C9: the single-record lookup uppercases its identifier and
prepends `NCT` when the uppercased form does not already start with it, so
`nct04267848`, `NCT04267848` and `04267848` all request the same path. -/
theorem claim_C9 :
    (∀ s : String, strStarts (pyUpper s) "NCT" = true → normalize_nct s = pyUpper s)
    ∧ (∀ s : String, strStarts (pyUpper s) "NCT" = false →
        normalize_nct s = "NCT" ++ pyUpper s)
    ∧ normalize_nct "nct04267848" = "NCT04267848"
    ∧ normalize_nct "NCT04267848" = "NCT04267848"
    ∧ normalize_nct "04267848" = "NCT04267848"
    ∧ studyRequestPath "nct04267848" = studyRequestPath "NCT04267848"
    ∧ studyRequestPath "04267848" = studyRequestPath "NCT04267848" := by
  refine ⟨?_, ?_, by decide, by decide, by decide, by decide, by decide⟩
  · intro s h
    simp [normalize_nct, h]
  · intro s h
    simp [normalize_nct, h]

/-- Witness for C9 at a concrete identifier. -/
theorem claim_C9_witness : normalize_nct "nct00000001" = pyUpper "nct00000001" :=
  claim_C9.1 "nct00000001" (by decide)

/-- Unfolding: a page without a continuation token ends the fetch cleanly,
whatever the remaining oracle holds. -/
theorem fetchLoop_done (data : Page) (net : List (Except HttpErr Page))
    (h : data.nextPageToken = none) :
    fetchLoop data net = (data.studies.map extract_row, [], false) := by
  cases net with
  | nil => simp [fetchLoop, h]
  | cons o rest =>
    cases o with
    | ok p => simp [fetchLoop, h]
    | error e =>
      cases rest with
      | nil => simp [fetchLoop, h]
      | cons o2 rest2 =>
        cases o2 with
        | ok p => simp [fetchLoop, h]
        | error e2 => simp [fetchLoop, h]

/-- Unfolding: a successful page request sleeps 1.2 and continues. -/
theorem fetchLoop_ok (data p : Page) (rest : List (Except HttpErr Page))
    (h : data.nextPageToken.isSome = true) :
    fetchLoop data (Except.ok p :: rest) =
      (data.studies.map extract_row ++ (fetchLoop p rest).1,
       12 :: (fetchLoop p rest).2.1, (fetchLoop p rest).2.2) := by
  obtain ⟨tok, htok⟩ := Option.isSome_iff_exists.mp h
  simp [fetchLoop, htok]

/-- Unfolding: a failed request followed by a successful retry sleeps 1.2,
then 10, and continues exactly as a clean request would. -/
theorem fetchLoop_retry (data p : Page) (e : HttpErr)
    (rest : List (Except HttpErr Page)) (h : data.nextPageToken.isSome = true) :
    fetchLoop data (Except.error e :: Except.ok p :: rest) =
      (data.studies.map extract_row ++ (fetchLoop p rest).1,
       12 :: 100 :: (fetchLoop p rest).2.1, (fetchLoop p rest).2.2) := by
  obtain ⟨tok, htok⟩ := Option.isSome_iff_exists.mp h
  simp [fetchLoop, htok]

/-- Unfolding: a failed request whose retry also fails stops the fetch with
the abort flag, keeping the rows already emitted. -/
theorem fetchLoop_abort (data : Page) (e e2 : HttpErr)
    (rest : List (Except HttpErr Page)) (h : data.nextPageToken.isSome = true) :
    fetchLoop data (Except.error e :: Except.error e2 :: rest) =
      (data.studies.map extract_row, [12, 100], true) := by
  obtain ⟨tok, htok⟩ := Option.isSome_iff_exists.mp h
  simp [fetchLoop, htok]

/-- Claim C7: when the N-th page carries no continuation token, the fetch
yields exactly the rows of pages 1..N in page order and stops: the absent
token is the terminal state (any further oracle entries are never used). -/
theorem claim_C7 :
    ∀ (p : Page) (ps : List Page) (extra : List (Except HttpErr Page)),
      tokensOK p ps = true →
      fetchLoop p (ps.map Except.ok ++ extra) =
        (pagesRows (p :: ps), List.replicate ps.length 12, false) := by
  intro p ps
  induction ps generalizing p with
  | nil =>
    intro extra h
    have hp : p.nextPageToken = none := by
      simpa [tokensOK, Option.isNone_iff_eq_none] using h
    rw [fetchLoop_done p _ hp]
    simp [pagesRows]
  | cons q qs ih =>
    intro extra h
    simp only [tokensOK, Bool.and_eq_true] at h
    obtain ⟨h1, h2⟩ := h
    simp only [List.map_cons, List.cons_append]
    rw [fetchLoop_ok p q _ h1, ih q extra h2]
    simp [pagesRows, List.replicate_succ]

/-- Witness for C7: a two-page sequence followed by a dead oracle entry. -/
theorem claim_C7_witness :
    fetchLoop ⟨[emptyRawRecord], some "t1"⟩
        ([(⟨[], none⟩ : Page)].map Except.ok ++ [Except.error ⟨500, "boom", "b"⟩]) =
      (pagesRows [⟨[emptyRawRecord], some "t1"⟩, ⟨[], none⟩],
       List.replicate 1 12, false) :=
  claim_C7 ⟨[emptyRawRecord], some "t1"⟩ [⟨[], none⟩]
    [Except.error ⟨500, "boom", "b"⟩] (by decide)

/-- Claim C4: a failed non-initial page request is retried exactly once
after the 10-unit delay; a recovered retry yields the same rows and the
same termination flag as a failure-free run (with exactly the one extra
10-unit sleep); a failed retry aborts while preserving all rows collected
so far, surfacing the abort instead of raising past them. -/
theorem claim_C4 :
    ∀ (data p : Page) (e : HttpErr) (rest : List (Except HttpErr Page)),
      ((fetchLoop data (Except.error e :: Except.ok p :: rest)).1
          = (fetchLoop data (Except.ok p :: rest)).1
        ∧ (fetchLoop data (Except.error e :: Except.ok p :: rest)).2.2
          = (fetchLoop data (Except.ok p :: rest)).2.2)
      ∧ (data.nextPageToken.isSome = true →
          (fetchLoop data (Except.error e :: Except.ok p :: rest)).2.1
              = 12 :: 100 :: (fetchLoop p rest).2.1
            ∧ (fetchLoop data (Except.ok p :: rest)).2.1
              = 12 :: (fetchLoop p rest).2.1)
      ∧ (∀ (e2 : HttpErr) (rest2 : List (Except HttpErr Page)),
          data.nextPageToken.isSome = true →
          fetchLoop data (Except.error e :: Except.error e2 :: rest2)
            = (data.studies.map extract_row, [12, 100], true))
      ∧ (data.nextPageToken.isSome = true → p.nextPageToken.isSome = true →
          ∀ (e2 e3 : HttpErr) (rest2 : List (Except HttpErr Page)),
          fetchLoop data (Except.ok p :: Except.error e2 :: Except.error e3 :: rest2)
            = (data.studies.map extract_row ++ p.studies.map extract_row,
               [12, 12, 100], true)) := by
  intro data p e rest
  refine ⟨?_, ?_, ?_, ?_⟩
  · cases hd : data.nextPageToken with
    | none =>
      rw [fetchLoop_done _ _ hd, fetchLoop_done _ _ hd]
      exact ⟨rfl, rfl⟩
    | some tok =>
      have hs : data.nextPageToken.isSome = true := by simp [hd]
      rw [fetchLoop_retry _ _ _ _ hs, fetchLoop_ok _ _ _ hs]
      exact ⟨rfl, rfl⟩
  · intro hs
    rw [fetchLoop_retry _ _ _ _ hs, fetchLoop_ok _ _ _ hs]
    exact ⟨rfl, rfl⟩
  · intro e2 rest2 hs
    exact fetchLoop_abort _ _ _ _ hs
  · intro hs hp e2 e3 rest2
    rw [fetchLoop_ok _ _ _ hs, fetchLoop_abort _ _ _ _ hp]

/-- Witness for C4: two consecutive failures after page 1 abort the fetch,
and page 1's row survives. -/
theorem claim_C4_witness :
    fetchLoop ⟨[emptyRawRecord], some "t2"⟩
        [Except.error ⟨503, "Service Unavailable", ""⟩,
         Except.error ⟨502, "Bad Gateway", ""⟩] =
      ([extract_row emptyRawRecord], [12, 100], true) :=
  (claim_C4 ⟨[emptyRawRecord], some "t2"⟩ ⟨[], none⟩
      ⟨503, "Service Unavailable", ""⟩ []).2.2.1
    ⟨502, "Bad Gateway", ""⟩ [] (by decide)

/-- Counterexample to C6 as stated: the count-discovery request of the bulk
fetcher surfaces its failure as an uncaught exception whose message shows
the status code and reason but not the response body, so the body is not
reported to the operator there. -/
theorem claim_C6_counterexample :
    fetchMain (Except.error ⟨500, "Internal Server Error", "body-details-xyz"⟩) []
        = Except.error ⟨500, "Internal Server Error", "body-details-xyz"⟩
    ∧ strIn "body-details-xyz"
        (uncaughtHttpErrMsg ⟨500, "Internal Server Error", "body-details-xyz"⟩)
      = false :=
  ⟨rfl, by decide⟩

/-- Claim C6 (amended): a failure of the very first request terminates the
operation immediately with no retry and a non-zero exit; the HTTP status
and reason reach the operator in both programs, but the response body is
reported only by the query CLI's request helper — the bulk fetcher's
uncaught exception message carries status and reason alone. -/
theorem claim_C6 :
    (∀ (e : HttpErr) (net : List (Except HttpErr Page)),
      fetchMain (Except.error e) net = Except.error e)
    ∧ (∀ e : HttpErr,
        uncaughtHttpErrMsg e = "HTTP Error " ++ toString e.code ++ ": " ++ e.reason)
    ∧ (∀ e : HttpErr, e.body ≠ "" →
        @ctgovApiRequest Page (Except.error e)
          = Except.error ["HTTP " ++ toString e.code ++ ": " ++ e.reason, e.body])
    ∧ (∀ e : HttpErr, e.body = "" →
        @ctgovApiRequest Page (Except.error e)
          = Except.error ["HTTP " ++ toString e.code ++ ": " ++ e.reason]) := by
  refine ⟨fun e net => rfl, fun e => rfl, ?_, ?_⟩
  · intro e h
    simp [ctgovApiRequest, h]
  · intro e h
    simp [ctgovApiRequest, h]

/-- Witness for C6 (amended) at a concrete failure with a body. -/
theorem claim_C6_witness :
    @ctgovApiRequest Page (Except.error ⟨404, "Not Found", "no such study"⟩)
      = Except.error ["HTTP " ++ toString 404 ++ ": " ++ "Not Found", "no such study"] :=
  claim_C6.2.2.1 ⟨404, "Not Found", "no such study"⟩ (by decide)

/-- One continuing step of the json-mode loop: token present and cap not
yet reached. -/
theorem jsonLoop_cont {α : Type} (mp fetched : Nat) (q : SPage α)
    (net : List (SPage α)) (t : String) (ht : q.nextPageToken = some t)
    (hlt : fetched + 1 < mp) :
    jsonLoop mp fetched (q :: net) = q.studies ++ jsonLoop mp (fetched + 1) net := by
  simp only [jsonLoop, ht]
  rw [if_neg (show ¬(mp ≠ 0 ∧ mp ≤ fetched + 1) by omega)]

/-- The final step of the json-mode loop: either the token is absent or the
cap is reached; the page's studies end the output. -/
theorem jsonLoop_last {α : Type} (mp fetched : Nat) (p : SPage α)
    (net : List (SPage α)) (hstop : mp ≠ 0 ∧ mp ≤ fetched + 1) :
    jsonLoop mp fetched (p :: net) = p.studies := by
  cases htok : p.nextPageToken with
  | none => simp [jsonLoop, htok]
  | some t =>
    simp only [jsonLoop, htok]
    rw [if_pos hstop]

/-- The json-mode loop on a chain of token-carrying pages followed by a
final page, with `max_pages` ending exactly at that final page: the output
is precisely the studies of those pages in order; later pages are never
requested. -/
theorem jsonLoop_steps {α : Type} (mp : Nat) :
    ∀ (ps : List (SPage α)) (fetched : Nat) (p : SPage α) (rest : List (SPage α)),
      mp ≠ 0 → fetched + ps.length + 1 = mp →
      (∀ q ∈ ps, q.nextPageToken.isSome = true) →
      jsonLoop mp fetched (ps ++ p :: rest) = pagesStudies (ps ++ [p]) := by
  intro ps
  induction ps with
  | nil =>
    intro fetched p rest hmp hlen _
    simp only [List.length_nil] at hlen
    simp only [List.nil_append]
    rw [jsonLoop_last mp fetched p rest ⟨hmp, by omega⟩]
    simp [pagesStudies]
  | cons q qs ih =>
    intro fetched p rest hmp hlen hall
    simp only [List.length_cons] at hlen
    have hq := hall q (List.mem_cons_self q qs)
    obtain ⟨t, ht⟩ := Option.isSome_iff_exists.mp hq
    simp only [List.cons_append]
    rw [jsonLoop_cont mp fetched q _ t ht (by omega)]
    rw [ih (fetched + 1) p rest hmp (by omega)
      (fun q2 hq2 => hall q2 (List.mem_cons_of_mem q hq2))]
    simp [pagesStudies]

/-- One continuing step of the formatted-mode loop after the first page:
token present, cap not reached. -/
theorem fmtLoop_cont {α : Type} (mp shown fetched : Nat) (q : SPage α)
    (net : List (SPage α)) (t : String) (ht : q.nextPageToken = some t)
    (hf : fetched ≠ 0) (hlt : fetched + 1 < mp) :
    fmtLoop mp shown fetched (q :: net) =
      (q.studies.map OutEvent.study ++
         (fmtLoop mp (shown + q.studies.length) (fetched + 1) net).1,
       (fmtLoop mp (shown + q.studies.length) (fetched + 1) net).2) := by
  have hb : (fetched == 0) = false := by simpa using hf
  simp only [fmtLoop, ht, hb, Bool.false_eq_true, if_false, List.nil_append]
  rw [if_neg (show ¬(mp ≠ 0 ∧ mp ≤ fetched + 1) by omega)]

/-- The capped step of the formatted-mode loop after the first page: token
still present but `max_pages` reached; the truncation notice is printed
when the remaining count is positive. -/
theorem fmtLoop_last {α : Type} (mp shown fetched : Nat) (p : SPage α)
    (net : List (SPage α)) (t : String) (ht : p.nextPageToken = some t)
    (hf : fetched ≠ 0) (hstop : mp ≠ 0 ∧ mp ≤ fetched + 1) :
    fmtLoop mp shown fetched (p :: net) =
      (p.studies.map OutEvent.study ++
         moreIfPos p.totalCount (shown + p.studies.length),
       shown + p.studies.length) := by
  have hb : (fetched == 0) = false := by simpa using hf
  simp only [fmtLoop, ht, hb, Bool.false_eq_true, if_false, List.nil_append]
  rw [if_pos hstop]
  simp [moreIfPos]

/-- The first iteration of the formatted-mode loop prints the totals
header; continuing variant (cap not reached). -/
theorem fmtLoop_first_cont {α : Type} (mp : Nat) (q : SPage α)
    (net : List (SPage α)) (t : String) (ht : q.nextPageToken = some t)
    (hlt : 1 < mp) :
    fmtLoop mp 0 0 (q :: net) =
      (OutEvent.found q.totalCount :: q.studies.map OutEvent.study ++
         (fmtLoop mp q.studies.length 1 net).1,
       (fmtLoop mp q.studies.length 1 net).2) := by
  simp only [fmtLoop, ht, beq_self_eq_true, if_true, Nat.zero_add]
  rw [if_neg (show ¬(mp ≠ 0 ∧ mp ≤ 0 + 1) by omega)]
  simp

/-- The first iteration of the formatted-mode loop with `max_pages = 1`:
header, the page's studies, and the truncation notice if the remaining
count is positive. -/
theorem fmtLoop_first_last {α : Type} (mp : Nat) (p : SPage α)
    (net : List (SPage α)) (t : String) (ht : p.nextPageToken = some t)
    (hstop : mp ≠ 0 ∧ mp ≤ 1) :
    fmtLoop mp 0 0 (p :: net) =
      (OutEvent.found p.totalCount :: p.studies.map OutEvent.study ++
         moreIfPos p.totalCount p.studies.length,
       p.studies.length) := by
  simp only [fmtLoop, ht, beq_self_eq_true, if_true]
  rw [if_pos (show mp ≠ 0 ∧ mp ≤ 0 + 1 by omega)]
  simp [moreIfPos]

/-- The formatted-mode loop, after the first page, over a chain of
token-carrying pages ending at the `max_pages` cap with a continuation
token still present: it prints the studies of those pages and then the
truncation notice when the remaining count is positive. -/
theorem fmtLoop_steps {α : Type} (mp : Nat) :
    ∀ (ps : List (SPage α)) (shown fetched : Nat) (p : SPage α)
      (rest : List (SPage α)),
      fetched ≠ 0 →
      (∀ q ∈ ps, q.nextPageToken.isSome = true) →
      p.nextPageToken.isSome = true →
      fetched + ps.length + 1 = mp →
      fmtLoop mp shown fetched (ps ++ p :: rest) =
        (studiesEvents (ps ++ [p]) ++
           moreIfPos p.totalCount (shown + pagesSize (ps ++ [p])),
         shown + pagesSize (ps ++ [p])) := by
  intro ps
  induction ps with
  | nil =>
    intro shown fetched p rest hf _ hp hmp
    simp only [List.length_nil] at hmp
    obtain ⟨tok, htok⟩ := Option.isSome_iff_exists.mp hp
    simp only [List.nil_append]
    rw [fmtLoop_last mp shown fetched p rest tok htok hf ⟨by omega, by omega⟩]
    simp [studiesEvents, pagesSize]
  | cons q qs ih =>
    intro shown fetched p rest hf hall hp hmp
    simp only [List.length_cons] at hmp
    have hq := hall q (List.mem_cons_self q qs)
    obtain ⟨t, ht⟩ := Option.isSome_iff_exists.mp hq
    simp only [List.cons_append]
    rw [fmtLoop_cont mp shown fetched q _ t ht hf (by omega)]
    rw [ih (shown + q.studies.length) (fetched + 1) p rest (by omega)
      (fun q2 hq2 => hall q2 (List.mem_cons_of_mem q hq2)) hp (by omega)]
    simp [studiesEvents, pagesSize, Nat.add_assoc]

/-- Claim C5 (amended): with `max_pages = k` and a page sequence longer
than `k`, both output modes of the search command stop after exactly the
first `k` pages' studies; the formatted mode prints the remaining count
when it is positive, while the raw-JSON mode's entire output is the bare
accumulated study list, which carries no remaining count. -/
theorem claim_C5 {α : Type} :
    ∀ (k : Nat) (ps : List (SPage α)) (p : SPage α) (rest : List (SPage α)),
      ps.length + 1 = k →
      (∀ q ∈ ps, q.nextPageToken.isSome = true) →
      p.nextPageToken.isSome = true →
      cmd_search_json k (ps ++ p :: rest) = pagesStudies (ps ++ [p])
      ∧ cmd_search_fmt k (ps ++ p :: rest)
          = OutEvent.found (firstTotal (ps ++ [p]))
              :: studiesEvents (ps ++ [p])
              ++ moreIfPos p.totalCount (pagesSize (ps ++ [p]))
              ++ (if pagesSize (ps ++ [p]) == 0 then [OutEvent.noStudies] else [])
      ∧ (pagesSize (ps ++ [p]) < p.totalCount →
          OutEvent.more ((p.totalCount : Int) - (pagesSize (ps ++ [p]) : Int))
            ∈ cmd_search_fmt k (ps ++ p :: rest)) := by
  intro k ps p rest hk hall hp
  have hjson : cmd_search_json k (ps ++ p :: rest) = pagesStudies (ps ++ [p]) := by
    unfold cmd_search_json
    exact jsonLoop_steps k ps 0 p rest (by omega) (by omega) hall
  have hfmt : cmd_search_fmt k (ps ++ p :: rest)
      = OutEvent.found (firstTotal (ps ++ [p]))
          :: studiesEvents (ps ++ [p])
          ++ moreIfPos p.totalCount (pagesSize (ps ++ [p]))
          ++ (if pagesSize (ps ++ [p]) == 0 then [OutEvent.noStudies] else []) := by
    cases ps with
    | nil =>
      obtain ⟨tok, htok⟩ := Option.isSome_iff_exists.mp hp
      simp only [List.length_nil] at hk
      simp only [List.nil_append]
      unfold cmd_search_fmt
      rw [fmtLoop_first_last k p rest tok htok ⟨by omega, by omega⟩]
      simp [studiesEvents, pagesSize, firstTotal]
    | cons q qs =>
      have hq := hall q (List.mem_cons_self q qs)
      obtain ⟨t, ht⟩ := Option.isSome_iff_exists.mp hq
      simp only [List.length_cons] at hk
      simp only [List.cons_append]
      unfold cmd_search_fmt
      rw [fmtLoop_first_cont k q _ t ht (by omega)]
      rw [fmtLoop_steps k qs q.studies.length 1 p rest (by omega)
        (fun q2 hq2 => hall q2 (List.mem_cons_of_mem q hq2)) hp (by omega)]
      simp [studiesEvents, pagesSize, firstTotal]
  refine ⟨hjson, hfmt, ?_⟩
  intro hlt
  rw [hfmt]
  have hpos : (0 : Int) < (p.totalCount : Int) - (pagesSize (ps ++ [p]) : Int) := by
    omega
  simp [moreIfPos, hpos]

/-- Witness for C5 (amended) at a concrete three-page oracle with `k = 2`. -/
theorem claim_C5_witness :
    cmd_search_json 2
        [(⟨[1, 2], 5, some "a"⟩ : SPage Nat), ⟨[3], 5, some "b"⟩, ⟨[4], 5, none⟩]
      = pagesStudies [(⟨[1, 2], 5, some "a"⟩ : SPage Nat), ⟨[3], 5, some "b"⟩] :=
  (claim_C5 2 [⟨[1, 2], 5, some "a"⟩] ⟨[3], 5, some "b"⟩ [⟨[4], 5, none⟩]
    (by decide) (by decide) (by decide)).1

/-- Counterexample to C5 as stated: with two available pages and
`max_pages = 1`, the formatted mode prints the truncation notice
`... 1 more studies`, but the raw-JSON mode's entire output is the bare
study list of page 1 — no remaining count is reported in that mode. -/
theorem claim_C5_counterexample :
    cmd_search_json 1 [(⟨[10], 2, some "t"⟩ : SPage Nat), ⟨[20], 2, none⟩] = [10]
    ∧ cmd_search_fmt 1 [(⟨[10], 2, some "t"⟩ : SPage Nat), ⟨[20], 2, none⟩]
        = [OutEvent.found 2, OutEvent.study 10, OutEvent.more 1] :=
  ⟨by decide, by decide⟩

/-- Fields without commas and quotes pass through the csv scanner
verbatim. -/
theorem csvParse_plain_skip :
    ∀ (cs : List Char), (∀ c ∈ cs, c ≠ ',' ∧ c ≠ '"') →
      ∀ (acc rest : List Char),
        csvParseAux CsvMode.plain acc (cs ++ rest)
          = csvParseAux CsvMode.plain (cs.reverse ++ acc) rest := by
  intro cs
  induction cs with
  | nil =>
    intro _ acc rest
    simp
  | cons c cs ih =>
    intro h acc rest
    have hc := h c (List.mem_cons_self c cs)
    have hcomma : (c == ',') = false := by simpa using hc.1
    have hquote : (c == '"') = false := by simpa using hc.2
    simp only [List.cons_append]
    rw [show csvParseAux CsvMode.plain acc (c :: (cs ++ rest))
        = csvParseAux CsvMode.plain (c :: acc) (cs ++ rest) from by
      simp [csvParseAux, hcomma, hquote]]
    rw [ih (fun x hx => h x (List.mem_cons_of_mem c hx)) (c :: acc) rest]
    simp

/-- The quote-doubling of the csv writer is undone by the scanner inside a
quoted section. -/
theorem csvParse_quoted_skip :
    ∀ (cs acc rest : List Char),
      csvParseAux CsvMode.quoted acc (csvEscape cs ++ rest)
        = csvParseAux CsvMode.quoted (cs.reverse ++ acc) rest := by
  intro cs
  induction cs with
  | nil =>
    intro acc rest
    simp [csvEscape]
  | cons c cs ih =>
    intro acc rest
    by_cases hc : c = '"'
    · subst hc
      rw [show csvEscape ('"' :: cs) = '"' :: '"' :: csvEscape cs from by
        simp [csvEscape]]
      simp only [List.cons_append]
      rw [show csvParseAux CsvMode.quoted acc ('"' :: ('"' :: (csvEscape cs ++ rest)))
          = csvParseAux CsvMode.closing acc ('"' :: (csvEscape cs ++ rest)) from by
        simp [csvParseAux]]
      rw [show csvParseAux CsvMode.closing acc ('"' :: (csvEscape cs ++ rest))
          = csvParseAux CsvMode.quoted ('"' :: acc) (csvEscape cs ++ rest) from by
        simp [csvParseAux]]
      rw [ih ('"' :: acc) rest]
      simp
    · have hcb : (c == '"') = false := by simpa using hc
      rw [show csvEscape (c :: cs) = c :: csvEscape cs from by
        simp [csvEscape, hcb]]
      simp only [List.cons_append]
      rw [show csvParseAux CsvMode.quoted acc (c :: (csvEscape cs ++ rest))
          = csvParseAux CsvMode.quoted (c :: acc) (csvEscape cs ++ rest) from by
        simp [csvParseAux, hcb]]
      rw [ih (c :: acc) rest]
      simp

/-- A field rendered by the csv writer, standing at the end of the line,
parses back to itself (values free of commas and line breaks; quotes are
escaped by the writer). -/
theorem csvField_parse_end (cs : List Char)
    (_hs : ∀ c ∈ cs, c ≠ ',' ∧ c ≠ '\n' ∧ c ≠ '\r') :
    csvParseAux CsvMode.plain [] (csvField cs) = [cs] := by
  unfold csvField
  by_cases hq : csvNeedsQuote cs = true
  · rw [if_pos hq]
    rw [show csvParseAux CsvMode.plain [] ('"' :: (csvEscape cs ++ ['"']))
        = csvParseAux CsvMode.quoted [] (csvEscape cs ++ ['"']) from by
      simp [csvParseAux]]
    rw [csvParse_quoted_skip cs [] ['"']]
    rw [show csvParseAux CsvMode.quoted (cs.reverse ++ []) ['"']
        = csvParseAux CsvMode.closing (cs.reverse ++ []) [] from by
      simp [csvParseAux]]
    simp [csvParseAux]
  · rw [if_neg hq]
    have hq2 : csvNeedsQuote cs = false := by simpa using hq
    simp only [csvNeedsQuote, List.any_eq_false] at hq2
    have hnc : ∀ c ∈ cs, c ≠ ',' ∧ c ≠ '"' := by
      intro c hcm
      have := hq2 c hcm
      simp at this
      exact ⟨this.1.1.1, this.1.1.2⟩
    have hrun := csvParse_plain_skip cs hnc [] []
    rw [List.append_nil] at hrun
    rw [hrun]
    simp [csvParseAux]

/-- A rendered field followed by a comma parses to the field and continues
scanning the rest of the line. -/
theorem csvField_parse_mid (cs : List Char)
    (_hs : ∀ c ∈ cs, c ≠ ',' ∧ c ≠ '\n' ∧ c ≠ '\r') (r : List Char) :
    csvParseAux CsvMode.plain [] (csvField cs ++ ',' :: r)
      = cs :: csvParseAux CsvMode.plain [] r := by
  unfold csvField
  by_cases hq : csvNeedsQuote cs = true
  · rw [if_pos hq]
    rw [show ('"' :: (csvEscape cs ++ ['"'])) ++ ',' :: r
        = '"' :: (csvEscape cs ++ ('"' :: ',' :: r)) from by simp]
    rw [show csvParseAux CsvMode.plain [] ('"' :: (csvEscape cs ++ ('"' :: ',' :: r)))
        = csvParseAux CsvMode.quoted [] (csvEscape cs ++ ('"' :: ',' :: r)) from by
      simp [csvParseAux]]
    rw [csvParse_quoted_skip cs [] ('"' :: ',' :: r)]
    rw [show csvParseAux CsvMode.quoted (cs.reverse ++ []) ('"' :: ',' :: r)
        = csvParseAux CsvMode.closing (cs.reverse ++ []) (',' :: r) from by
      simp [csvParseAux]]
    rw [show csvParseAux CsvMode.closing (cs.reverse ++ []) (',' :: r)
        = (cs.reverse ++ []).reverse :: csvParseAux CsvMode.plain [] r from by
      simp [csvParseAux]]
    simp
  · rw [if_neg hq]
    have hq2 : csvNeedsQuote cs = false := by simpa using hq
    simp only [csvNeedsQuote, List.any_eq_false] at hq2
    have hnc : ∀ c ∈ cs, c ≠ ',' ∧ c ≠ '"' := by
      intro c hcm
      have := hq2 c hcm
      simp at this
      exact ⟨this.1.1.1, this.1.1.2⟩
    rw [csvParse_plain_skip cs hnc [] (',' :: r)]
    rw [show csvParseAux CsvMode.plain (cs.reverse ++ []) (',' :: r)
        = (cs.reverse ++ []).reverse :: csvParseAux CsvMode.plain [] r from by
      simp [csvParseAux]]
    simp

/-- Round trip of a complete record line through the csv writer and the
csv scanner. -/
theorem csvLine_roundtrip :
    ∀ (fs : List (List Char)), fs ≠ [] →
      (∀ f ∈ fs, ∀ c ∈ f, c ≠ ',' ∧ c ≠ '\n' ∧ c ≠ '\r') →
      csvParseLine (csvWriteLine fs) = fs := by
  intro fs
  induction fs with
  | nil =>
    intro h
    exact absurd rfl h
  | cons f fs ih =>
    intro _ hsafe
    cases fs with
    | nil =>
      unfold csvParseLine
      rw [show csvWriteLine [f] = csvField f from rfl]
      exact csvField_parse_end f (hsafe f (List.mem_cons_self f []))
    | cons g gs =>
      unfold csvParseLine
      rw [show csvWriteLine (f :: g :: gs)
          = csvField f ++ ',' :: csvWriteLine (g :: gs) from rfl]
      rw [csvField_parse_mid f (hsafe f (List.mem_cons_self f (g :: gs)))
        (csvWriteLine (g :: gs))]
      have hrec := ih (by simp) (fun x hx => hsafe x (List.mem_cons_of_mem f hx))
      unfold csvParseLine at hrec
      rw [hrec]

/-- Claim C8: exporting a Row through the tabular format and reparsing the
line reproduces every field's original string value exactly, for rows over
the fixed column set whose values are free of the column delimiter and of
line breaks (the multi-value `|` delimiter and double quotes are ordinary
characters here and survive the trip). -/
theorem claim_C8 :
    ∀ (row : List (String × String)),
      row.map Prod.fst = CSV_COLUMNS →
      (∀ pr ∈ row, csvSafe pr.2 = true) →
      csvParseRow (csvWriteRow (row.map Prod.snd)) = row.map Prod.snd := by
  intro row hcols hsafe
  have hne : row ≠ [] := by
    intro h
    rw [h] at hcols
    exact absurd hcols.symm (by decide)
  have hln : ((row.map Prod.snd).map String.toList) ≠ [] := by
    simp only [ne_eq, List.map_eq_nil_iff]
    exact hne
  have hsf : ∀ f ∈ (row.map Prod.snd).map String.toList,
      ∀ c ∈ f, c ≠ ',' ∧ c ≠ '\n' ∧ c ≠ '\r' := by
    intro f hf c hc
    simp only [List.mem_map] at hf
    obtain ⟨v, hv, rfl⟩ := hf
    obtain ⟨pr, hpr, rfl⟩ := hv
    have hsv := hsafe pr hpr
    simp only [csvSafe, List.all_eq_true] at hsv
    have := hsv c hc
    simp at this
    exact ⟨this.1.1, this.1.2, this.2⟩
  unfold csvParseRow csvWriteRow
  rw [show (String.mk (csvWriteLine ((row.map Prod.snd).map String.toList))).toList
      = csvWriteLine ((row.map Prod.snd).map String.toList) from rfl]
  rw [csvLine_roundtrip ((row.map Prod.snd).map String.toList) hln hsf]
  simp only [List.map_map]
  rw [show (String.mk ∘ String.toList ∘ Prod.snd)
      = (Prod.snd : String × String → String) from funext fun _ => rfl]

/-- Witness for C8: the 24-column row whose every value holds the
multi-value delimiter and an escaped quote. -/
theorem claim_C8_witness :
    csvParseRow (csvWriteRow ((CSV_COLUMNS.map fun c => (c, "a|b\"x")).map Prod.snd))
      = (CSV_COLUMNS.map fun c => (c, "a|b\"x")).map Prod.snd :=
  claim_C8 (CSV_COLUMNS.map fun c => (c, "a|b\"x")) (by decide) (by decide)
